import Mathlib

/-!
Verification of the `reposicao` workforce-scheduling core.

Shallow embedding of `model.py` (time-block arithmetic, `Shift`, `Employee`,
`Task`, `Schedule.assign`, `Schedule.calculate_metrics`) and of the hard
constraint set built by `optimizer.py` (`TaskOptimizer.solve`).

Python floats are modelled as exact rationals (ℚ); Python dicts keyed by
id-strings are modelled as functions `String → ℚ` updated pointwise.
-/

namespace Reposicao

/-- `START_HOUR = 6` (model.py). -/
def START_HOUR : ℕ := 6

/-- `END_HOUR = 22` (model.py); unused by the core computations. -/
def END_HOUR : ℕ := 22

/-- `PHYSICAL_END_HOUR = 26` (model.py). -/
def PHYSICAL_END_HOUR : ℕ := 26

/-- `BLOCKS_PER_HOUR = 4` (model.py). -/
def BLOCKS_PER_HOUR : ℕ := 4

/-- `TOTAL_BLOCKS = (PHYSICAL_END_HOUR - START_HOUR) * BLOCKS_PER_HOUR` (model.py). -/
def TOTAL_BLOCKS : ℕ := (PHYSICAL_END_HOUR - START_HOUR) * BLOCKS_PER_HOUR

/-- The `effective_hour` computed by `model.time_to_block`: an hour before
`START_HOUR` is treated as belonging to the next day. -/
def effectiveHour (hour : ℕ) : ℕ :=
  if hour < START_HOUR then hour + 24 else hour

/-- Embedding of `model.time_to_block`.  The Python body computes
`effective_hour = hour + 24` when `hour < START_HOUR`, then
`(effective_hour - START_HOUR) * BLOCKS_PER_HOUR + minute // 15`.
The out-of-range guard in the source is `pass`: no exception is ever
raised, so the embedding is a total function. -/
def time_to_block (hour minute : ℕ) : ℕ :=
  (effectiveHour hour - START_HOUR) * BLOCKS_PER_HOUR + minute / 15

/-- Embedding of `model.block_to_time`.  The source formats
`f"{hour:02d}:{minute:02d}"`; we return the `(hour, minute)` pair that
string displays: `hour = (START_HOUR*60 + block*15) / 60 % 24`,
`minute = (START_HOUR*60 + block*15) % 60`. -/
def block_to_time (block_idx : ℕ) : ℕ × ℕ :=
  let absolute_minutes := START_HOUR * 60 + block_idx * 15
  ((absolute_minutes / 60) % 24, absolute_minutes % 60)

/-- Embedding of `model.Shift`. -/
structure Shift where
  start_block : ℕ
  end_block : ℕ
  deriving Repr, DecidableEq

/-- `Shift.contains`: `start_block <= b < end_block`. -/
def Shift.containsB (sh : Shift) (block_idx : ℕ) : Bool :=
  decide (sh.start_block ≤ block_idx) && decide (block_idx < sh.end_block)

/-- Embedding of `model.Employee` (the fields the core computations read). -/
structure Employee where
  id : String
  name : String
  shifts : List Shift := []
  skills : List String := []
  base_speed : ℚ := 1
  switch_cost : ℚ := 1
  fatigue_rate : ℚ := 0
  ideal_tasks : List String := []
  deriving Repr, DecidableEq

/-- `Employee.is_available`: any shift contains the block. -/
def Employee.is_available (e : Employee) (block_idx : ℕ) : Bool :=
  e.shifts.any (fun sh => sh.containsB block_idx)

/-- `Employee.has_skill`: an empty requirement is always satisfied,
otherwise membership in `skills`. -/
def Employee.has_skill (e : Employee) (skill : String) : Bool :=
  if skill.isEmpty then true else e.skills.contains skill

/-- Embedding of `model.Task`. -/
structure Task where
  id : String
  name : String
  effort_required : ℚ
  priority : ℤ := 1
  skill_needed : String := ""
  demand_curve : Option (List ℕ) := none
  deriving Repr, DecidableEq

/-- `Task.is_fixed`: a task is fixed iff it carries a demand curve. -/
def Task.is_fixed (t : Task) : Bool := t.demand_curve.isSome

/-- Default employee used for out-of-range list indexing (Python defaults of
the dataclass). -/
def defEmployee : Employee := { id := "", name := "" }

/-- Default task used for out-of-range list indexing. -/
def defTask : Task := { id := "", name := "", effort_required := 0 }

/-! ## Schedule grid and `assign` -/

/-- One block's cell of `Schedule.grid`: the dict `employee_id → task_id`,
modelled as an association list. -/
abbrev Cell := List (String × String)

/-- `Schedule.grid`: a list of `TOTAL_BLOCKS` cells. -/
abbrev Grid := List Cell

/-- The empty schedule: `TOTAL_BLOCKS` empty cells. -/
def emptyGrid : Grid := List.replicate TOTAL_BLOCKS []

/-- The distinct `raise` sites of `Schedule.assign` (all `ValueError` in the
source, distinguished by message).  The spec's `ScheduleConflictError`
taxonomy maps `notOnShift`, `alreadyAssigned` and `taskTaken` to conflict
errors and `blockOutOfRange` to an out-of-range error. -/
inductive AssignError where
  | blockOutOfRange
  | notOnShift
  | alreadyAssigned (current_task : String)
  | taskTaken (emp_id : String)
  deriving Repr, DecidableEq

/-- Embedding of `Schedule.assign`: range check, availability check,
employee-double-booking check, task-double-booking check, in source order;
on success the cell gains the binding `employee.id → task.id`. -/
def assign (grid : Grid) (block_idx : ℕ) (employee : Employee) (task : Task) :
    Except AssignError Grid :=
  if ¬ block_idx < TOTAL_BLOCKS then .error .blockOutOfRange
  else if ¬ employee.is_available block_idx then .error .notOnShift
  else
    let cell := grid.getD block_idx []
    match cell.lookup employee.id with
    | some current_task => .error (.alreadyAssigned current_task)
    | none =>
      match cell.find? (fun p => p.2 == task.id) with
      | some p => .error (.taskTaken p.1)
      | none => .ok (grid.set block_idx ((employee.id, task.id) :: cell))

/-! ## Behavioral metrics engine (`Schedule.calculate_metrics`) -/

/-- What one block of the day looks like to one employee: off shift,
on shift but idle, or on shift working a task.  Mirrors the branch
structure of the per-block body of `calculate_metrics` (the off-shift
test dominates; an empty task id is falsy in Python, hence idle). -/
inductive BlockStatus where
  | offShift
  | idle
  | working (task_id : String)
  deriving Repr, DecidableEq

/-- The status of employee `e` at block `b` read off the grid,
as `calculate_metrics` reads it: `task_id = grid[b].get(emp.id)` and
the `on_shift` test. -/
def statusAt (grid : Grid) (e : Employee) (b : ℕ) : BlockStatus :=
  if e.is_available b then
    match (grid.getD b []).lookup e.id with
    | some t => if t.isEmpty then .idle else .working t
    | none => .idle
  else .offShift

/-- The per-employee running state plus the accumulators the loop body of
`calculate_metrics` mutates.  `total` and `cost` are kept separate because
the source adds each charge to `metrics.total_cost` and to
`metrics.employee_costs[emp.id]` at two distinct `+=` sites. -/
structure EmpAcc where
  consec : ℕ
  last : Option String
  cost : ℚ
  total : ℚ
  prog : String → ℚ

/-- The constant idle cost `0.2` of `calculate_metrics`. -/
def idleCost : ℚ := 1/5

/-- The constant preference penalty `0.5` of `calculate_metrics`. -/
def prefPenalty : ℚ := 1/2

/-- One iteration of the per-block body of `calculate_metrics` for one
employee: off-shift resets state; idle resets state and charges `0.2`;
working increments `consecutive_blocks`, charges the switch cost when
`last_task_id` is set and differs, adds the fatigue-clamped effective
speed to the task's progress, and charges `0.5` when the task is not in a
non-empty `ideal_tasks`. -/
def empBlock (emp : Employee) (a : EmpAcc) (st : BlockStatus) : EmpAcc :=
  match st with
  | .offShift => { a with consec := 0, last := none }
  | .idle =>
      { a with consec := 0, last := none,
               cost := a.cost + idleCost, total := a.total + idleCost }
  | .working t =>
      let consec := a.consec + 1
      let switched : Bool :=
        match a.last with
        | none => false
        | some t' => decide (t ≠ t')
      let cost1 := if switched then a.cost + emp.switch_cost else a.cost
      let total1 := if switched then a.total + emp.switch_cost else a.total
      let fatigue_factor : ℚ := max (1/10) (1 - emp.fatigue_rate * (consec : ℚ))
      let effective_speed := emp.base_speed * fatigue_factor
      let prog1 : String → ℚ :=
        fun id => if id = t then a.prog id + effective_speed else a.prog id
      let penalized : Bool := !emp.ideal_tasks.isEmpty && !emp.ideal_tasks.contains t
      let cost2 := if penalized then cost1 + prefPenalty else cost1
      let total2 := if penalized then total1 + prefPenalty else total1
      { consec := consec, last := some t, cost := cost2, total := total2, prog := prog1 }

/-- The block statuses of one employee over the whole day, in block order. -/
def dayStatuses (grid : Grid) (e : Employee) : List BlockStatus :=
  (List.range TOTAL_BLOCKS).map (statusAt grid e)

/-- The full-day sweep of `calculate_metrics` for one employee. -/
def sweepEmp (emp : Employee) (sts : List BlockStatus) (a : EmpAcc) : EmpAcc :=
  sts.foldl (empBlock emp) a

/-- Embedding of `ScheduleMetrics` (the numeric fields). -/
structure ScheduleMetrics where
  total_cost : ℚ
  task_progress : String → ℚ
  employee_costs : String → ℚ

/-- The per-employee iteration of the outer loop of `calculate_metrics`:
the running `(total_cost, task_progress, employee_costs)` triple is
threaded through one employee's full-day sweep. -/
def metricsStep (grid : Grid) (acc : ℚ × (String → ℚ) × (String → ℚ))
    (emp : Employee) : ℚ × (String → ℚ) × (String → ℚ) :=
  let (tot, prog, ec) := acc
  let a := sweepEmp emp (dayStatuses grid emp)
    { consec := 0, last := none, cost := ec emp.id, total := tot, prog := prog }
  (a.total, a.prog, fun id => if id = emp.id then a.cost else ec id)

/-- Embedding of `Schedule.calculate_metrics`: initialise the progress and
cost dicts at zero, then sweep the whole day once per employee, threading
`total_cost` and `task_progress` through and writing each employee's
accumulated cost back into `employee_costs`. -/
def calculate_metrics (grid : Grid) (employees : List Employee)
    (_tasks : List Task) : ScheduleMetrics :=
  let init : ℚ × (String → ℚ) × (String → ℚ) := (0, fun _ => 0, fun _ => 0)
  let res := employees.foldl (metricsStep grid) init
  { total_cost := res.1, task_progress := res.2.1, employee_costs := res.2.2 }

/-! ## Constraint formulation (`optimizer.TaskOptimizer.solve`)

The solver variables are `x[e, t, s] ∈ {0,1}`, modelled as a function
`ℕ → ℕ → ℕ → Bool`.  `solve` adds four families of hard constraints on `x`
(the auxiliary `start_e_t_s` variables only enter the objective and are
always satisfiable, so the set of accepted `x` is exactly the set below). -/

/-- Python `int()` applied to a float: truncation toward zero. -/
def pyInt (q : ℚ) : ℤ := if 0 ≤ q then ⌊q⌋ else ⌈q⌉

/-- Modelled from the spec: the spec's word `round(effort_required)` —
rounding to the nearest integer (half up) — used only to compare the
spec's demand constraint with the source's `int(task_obj.effort_required)`. -/
def roundSpec (q : ℚ) : ℤ := ⌊q + 1/2⌋

/-- Number of tasks assigned to employee `e` at block `s`:
`sum(x[e,t,s] for t in t_range)`. -/
def assignedTaskCount (x : ℕ → ℕ → ℕ → Bool) (nT e s : ℕ) : ℕ :=
  ((List.range nT).map (fun t => (x e t s).toNat)).sum

/-- Number of employees assigned to task `t` at block `s`:
`sum(x[e,t,s] for e in e_range)`. -/
def assignedEmpCount (x : ℕ → ℕ → ℕ → Bool) (nE t s : ℕ) : ℕ :=
  ((List.range nE).map (fun e => (x e t s).toNat)).sum

/-- Total blocks assigned to task `t` over the whole day:
`sum(x[e,t,s] for e in e_range for s in s_range)`. -/
def totalAssigned (x : ℕ → ℕ → ℕ → Bool) (nE t : ℕ) : ℕ :=
  ((List.range TOTAL_BLOCKS).map (fun s => assignedEmpCount x nE t s)).sum

/-- The hard constraint set of `TaskOptimizer.solve`, in source order:
A availability (`x[e,t,s] = 0` when the employee is off shift),
B employee exclusivity (`Σ_t x[e,t,s] ≤ 1`),
C task exclusivity (`Σ_e x[e,t,s] ≤ 1`, added for every task),
D demand (`Σ_e Σ_s x[e,t,s] = int(task.effort_required)`, added for every
task; the source never reads `demand_curve` or `skill_needed`). -/
def Feasible (employees : List Employee) (tasks : List Task)
    (x : ℕ → ℕ → ℕ → Bool) : Prop :=
  (∀ e < employees.length, ∀ s < TOTAL_BLOCKS,
      (employees.getD e defEmployee).is_available s = false →
      ∀ t < tasks.length, x e t s = false) ∧
  (∀ e < employees.length, ∀ s < TOTAL_BLOCKS,
      assignedTaskCount x tasks.length e s ≤ 1) ∧
  (∀ t < tasks.length, ∀ s < TOTAL_BLOCKS,
      assignedEmpCount x employees.length t s ≤ 1) ∧
  (∀ t < tasks.length,
      (totalAssigned x employees.length t : ℤ) =
        pyInt (tasks.getD t defTask).effort_required)

instance (employees : List Employee) (tasks : List Task)
    (x : ℕ → ℕ → ℕ → Bool) : Decidable (Feasible employees tasks x) := by
  unfold Feasible
  infer_instance

/-- Embedding of `TaskOptimizer._build_schedule_from_solution`: for every
`(e, t, s)` with solved value 1, write `employee.id → task.id` at block `s`.
Under employee exclusivity at most one `t` fires per `(e, s)`, so taking
the first is exact on feasible solutions. -/
def decodeGrid (employees : List Employee) (tasks : List Task)
    (x : ℕ → ℕ → ℕ → Bool) : Grid :=
  (List.range TOTAL_BLOCKS).map (fun s =>
    (List.range employees.length).filterMap (fun e =>
      ((List.range tasks.length).find? (fun t => x e t s)).map
        (fun t => ((employees.getD e defEmployee).id, (tasks.getD t defTask).id))))

/-- How many employees a decoded grid has working task `task_id` at block
`s`. -/
def countWorking (grid : Grid) (task_id : String) (s : ℕ) : ℕ :=
  (grid.getD s []).countP (fun p => p.2 == task_id)

/-! ## Derived counting functions used to state the metrics claims -/

/-- The task worked in a block, if any (the value `last_task_id` holds
after the sweep processes that block). -/
def prevTask : BlockStatus → Option String
  | .working t => some t
  | _ => none

/-- Number of adjacent block pairs in which the employee works two
different tasks back to back: one per maximal contiguous run of a task
whose immediately preceding block was spent working a different task.
Runs entered from idle, off-shift or the start of the day count zero. -/
def adjacentSwitches (sts : List BlockStatus) : ℕ :=
  (sts.zip sts.tail).countP (fun p =>
    match p with
    | (.working t', .working t) => decide (t ≠ t')
    | _ => false)

/-- Number of on-shift idle blocks in a status sequence. -/
def idleBlocks (sts : List BlockStatus) : ℕ :=
  sts.countP (fun s => match s with | .idle => true | _ => false)

/-- Number of worked blocks charged the preference penalty: the employee
has a non-empty ideal-task list and the worked task is not in it. -/
def nonIdealBlocks (emp : Employee) (sts : List BlockStatus) : ℕ :=
  sts.countP (fun s =>
    match s with
    | .working t => !emp.ideal_tasks.isEmpty && !emp.ideal_tasks.contains t
    | _ => false)

/-- Contribution of one block to the switch count given the task worked in
the previous block (if any). -/
def headSwitch (l : Option String) (s : Option BlockStatus) : ℕ :=
  match l, s with
  | some t', some (.working t) => if t ≠ t' then 1 else 0
  | _, _ => 0

/-- Switch count of a status sequence entered with `last_task_id = l`. -/
def switchesAux (l : Option String) : List BlockStatus → ℕ
  | [] => 0
  | s :: rest => headSwitch l (some s) + switchesAux (prevTask s) rest

/-! ## Concrete instances used by the claims -/

/-- Scenario-B employee of `demo_phase2.py`: `base_speed=1.5`,
`fatigue_rate=0.05`, on shift exactly for the five assigned blocks. -/
def emp1 : Employee :=
  { id := "E", name := "E", shifts := [⟨8, 13⟩],
    base_speed := 3/2, fatigue_rate := 1/20, switch_cost := 1 }

/-- Scenario-B task. -/
def task1 : Task := { id := "T", name := "T", effort_required := 6 }

/-- Scenario-B grid: the employee works `"T"` at blocks 8..12. -/
def grid1 : Grid :=
  (List.range TOTAL_BLOCKS).map (fun b => if 8 ≤ b ∧ b < 13 then [("E", "T")] else [])

/-- An employee on shift for the whole day. -/
def allDayEmp : Employee := { id := "A", name := "A", shifts := [⟨0, TOTAL_BLOCKS⟩] }

/-- A second employee on shift for the whole day. -/
def allDayEmp2 : Employee := { id := "B", name := "B", shifts := [⟨0, TOTAL_BLOCKS⟩] }

/-- Scenario-C fixed task: `demand_curve = [1,1,0,1]`,
`effort_required = 3` (the loader sets effort to the demand-curve sum). -/
def taskFix : Task :=
  { id := "F", name := "F", effort_required := 3, demand_curve := some [1, 1, 0, 1] }

/-- A solver solution assigning the sole employee to the fixed task at
blocks 4, 5 and 6 — far from the demand window 0..3. -/
def xFix : ℕ → ℕ → ℕ → Bool := fun e t s => e == 0 && t == 0 && (4 ≤ s && s < 7)

/-- A task requiring skill `"X"`, which `allDayEmp` (no skills) lacks. -/
def taskSkill : Task :=
  { id := "S", name := "S", effort_required := 1, skill_needed := "X" }

/-- A solver solution assigning the unskilled employee to the
skill-requiring task at block 0. -/
def xSkill : ℕ → ℕ → ℕ → Bool := fun e t s => e == 0 && t == 0 && s == 0

/-- A flexible task with one block of effort. -/
def taskFlex : Task := { id := "L", name := "L", effort_required := 1 }

/-- A solver solution assigning the first of two employees to the flexible
task at block 0. -/
def xFlex : ℕ → ℕ → ℕ → Bool := fun e t s => e == 0 && t == 0 && s == 0

/-- A flexible task with fractional effort 2.7: `round` gives 3,
`int()` gives 2. -/
def taskFrac : Task := { id := "R", name := "R", effort_required := 27/10 }

/-- A solver solution assigning the sole employee to `taskFrac` for
exactly 2 blocks. -/
def xFrac : ℕ → ℕ → ℕ → Bool := fun e t s => e == 0 && t == 0 && s < 2

/-! ## Theorems -/

/-- Claim C1.  For one employee with `base_speed = 1.5` and `fatigue_rate = 0.05`,
on shift for and assigned to one task for 5 consecutive blocks,
`calculate_metrics` accumulates task progress `51/8 = 6.375`, not the
claimed `≈ 6.75`: the source increments `consecutive_blocks` before
computing the fatigue factor, so the very first block is already fatigued
and the per-block effective speeds are `1.425, 1.35, 1.275, 1.2, 1.125`
instead of the `1.5, 1.425, 1.35, 1.275, 1.2` documented in
`demo_phase2.py`. -/
theorem c1_fatigue_first_block :
    (calculate_metrics grid1 [emp1] [task1]).task_progress "T" = 51/8 ∧
      (51/8 : ℚ) ≠ 27/4 := by
  constructor
  · with_unfolding_all decide
  · with_unfolding_all decide

/-- Claim C4.  `time_to_block` never fails: at `hour = 2` the effective hour is
26, outside `[START_HOUR, PHYSICAL_END_HOUR) = [6, 26)`, yet the function
returns block index 80 = `TOTAL_BLOCKS` (one past the last valid grid
index) because the out-of-range branch in the source is `pass`.  The
embedding is a total function with no error case at all. -/
theorem c4_no_range_error :
    ¬ effectiveHour 2 < PHYSICAL_END_HOUR ∧
      time_to_block 2 0 = TOTAL_BLOCKS := by
  exact ⟨by decide, by decide⟩

/-- Claim C7, counterexample.  The round trip is not the identity on every
valid input: at `8:07` (effective hour 8, inside `[6, 26)`) the block
conversion floors the minutes to the 15-minute grid, and
`block_to_time (time_to_block 8 7) = 8:00 ≠ 8:07`. -/
theorem c7_roundtrip_counterexample :
    START_HOUR ≤ effectiveHour 8 ∧ effectiveHour 8 < PHYSICAL_END_HOUR ∧
      block_to_time (time_to_block 8 7) = (8, 0) ∧ (8, 0) ≠ ((8 : ℕ), (7 : ℕ)) := by
  exact ⟨by decide, by decide, by decide, by decide⟩

/-- Claim C7, amended.  For every clock time `(h, m)` with `h < 24`, `m < 60`,
effective hour inside `[START_HOUR, PHYSICAL_END_HOUR)` and `m` aligned to
the 15-minute block grid, `block_to_time (time_to_block h m)` reproduces
`(h, m)` exactly (the displayed hour is reduced modulo 24, and `h < 24`
already equals its own residue). -/
theorem c7_roundtrip_aligned :
    ∀ h < 24, ∀ m < 60, m % 15 = 0 →
      START_HOUR ≤ effectiveHour h → effectiveHour h < PHYSICAL_END_HOUR →
      block_to_time (time_to_block h m) = (h, m) := by
  intro h hh m hm hmod
  simp only [block_to_time, time_to_block, effectiveHour, START_HOUR,
    PHYSICAL_END_HOUR, BLOCKS_PER_HOUR, Prod.mk.injEq]
  by_cases hc : h < 6 <;> simp only [hc, if_true, if_false, reduceIte] <;>
    intro h1 h2 <;> constructor <;> omega

/-- Witness for C7: the round trip at `8:15`. -/
theorem c7_roundtrip_aligned_witness :
    8 < 24 ∧ 15 < 60 ∧ block_to_time (time_to_block 8 15) = (8, 15) :=
  ⟨by decide, by decide,
    c7_roundtrip_aligned 8 (by decide) 15 (by decide) (by decide) (by decide) (by decide)⟩

/-- Claim C8.  Whenever a block already holds an entry for an employee, `assign`
fails for every requested task (the same task included): with a conflict
on the employee's availability when the employee is not on shift, and
with the employee-already-assigned conflict otherwise.  Both raises are
the spec's `ScheduleConflictError`; the occupied-check precedes the
task-duplication check, so the requested task is never consulted. -/
theorem c8_assign_rejects_occupied (grid : Grid) (b : ℕ) (emp : Employee)
    (task : Task) (cur : String) (hb : b < TOTAL_BLOCKS)
    (hocc : (grid.getD b []).lookup emp.id = some cur) :
    assign grid b emp task =
      .error (if emp.is_available b then .alreadyAssigned cur else .notOnShift) := by
  simp only [List.getD_eq_getElem?_getD] at hocc
  by_cases ha : emp.is_available b = true
  · simp [assign, hb, ha, hocc]
  · simp [assign, hb, ha]

/-- Witness for C8: block 8 of `grid1` already maps `"E"` to `"T"`;
re-assigning `"E"` (even to the same task) fails with the
already-assigned conflict. -/
theorem c8_assign_rejects_occupied_witness :
    8 < TOTAL_BLOCKS ∧ (grid1.getD 8 []).lookup emp1.id = some "T" ∧
      assign grid1 8 emp1 task1 =
        .error (if emp1.is_available 8 then .alreadyAssigned "T" else .notOnShift) :=
  ⟨by decide, by decide,
    c8_assign_rejects_occupied grid1 8 emp1 task1 "T" (by decide) (by decide)⟩

/-! ### Constraint-layer helper lemmas -/

/-- Two distinct summands bound a `List.range` sum from below. -/
theorem sum_pair_le (f : ℕ → ℕ) (n e1 e2 : ℕ) (h1 : e1 < n) (h2 : e2 < n)
    (hne : e1 ≠ e2) : f e1 + f e2 ≤ ((List.range n).map f).sum := by
  have hr : ((List.range n).map f).sum = ∑ i ∈ Finset.range n, f i := rfl
  rw [hr, ← Finset.sum_pair hne]
  apply Finset.sum_le_sum_of_subset
  intro i hi
  simp only [Finset.mem_insert, Finset.mem_singleton] at hi
  rcases hi with rfl | rfl <;> simpa [Finset.mem_range]

/-- Constraint C of the formulation (added for every task, fixed or
flexible) forbids two distinct employees on the same task at the same
block. -/
theorem feasible_task_exclusive (employees : List Employee) (tasks : List Task)
    (x : ℕ → ℕ → ℕ → Bool) (hf : Feasible employees tasks x) :
    ∀ t < tasks.length, ∀ s < TOTAL_BLOCKS, ∀ e1 e2, e1 < employees.length →
      e2 < employees.length → e1 ≠ e2 → ¬(x e1 t s = true ∧ x e2 t s = true) := by
  intro t ht s hs e1 e2 he1 he2 hne
  rintro ⟨hx1, hx2⟩
  have hC := hf.2.2.1 t ht s hs
  have hge := sum_pair_le (fun e => (x e t s).toNat) employees.length e1 e2 he1 he2 hne
  simp only [hx1, hx2, Bool.toNat_true] at hge
  exact absurd (le_trans hge hC) (by omega)

/-- `xFix` satisfies every hard constraint of the formulation built for
`[allDayEmp]` and the fixed task `taskFix`. -/
theorem feasible_xFix : Feasible [allDayEmp] [taskFix] xFix := by
  with_unfolding_all decide

/-- `xSkill` satisfies every hard constraint of the formulation built for
`[allDayEmp]` and the skill-requiring task `taskSkill`. -/
theorem feasible_xSkill : Feasible [allDayEmp] [taskSkill] xSkill := by
  with_unfolding_all decide

/-- `xFlex` satisfies every hard constraint of the formulation built for
two employees and the flexible task `taskFlex`. -/
theorem feasible_xFlex : Feasible [allDayEmp, allDayEmp2] [taskFlex] xFlex := by
  with_unfolding_all decide

/-- `xFrac` satisfies every hard constraint of the formulation built for
`[allDayEmp]` and the fractional-effort task `taskFrac`. -/
theorem feasible_xFrac : Feasible [allDayEmp] [taskFrac] xFrac := by
  with_unfolding_all decide

/-- Claim C2, counterexample.  The formulation accepts a solution for the fixed
task with `demand_curve = [1,1,0,1]` that decodes to a grid staffing 0
employees at block 0, where the demand is 1: `TaskOptimizer.solve` never
reads `demand_curve`, it only constrains the day-wide total to
`int(effort_required)`. -/
theorem c2_demand_curve_ignored :
    Feasible [allDayEmp] [taskFix] xFix ∧ taskFix.is_fixed = true ∧
      taskFix.demand_curve = some [1, 1, 0, 1] ∧ [1, 1, 0, 1].getD 0 0 = 1 ∧
      countWorking (decodeGrid [allDayEmp] [taskFix] xFix) taskFix.id 0 = 0 :=
  ⟨feasible_xFix, by decide, by decide, by decide, by decide⟩

/-- Claim C2, amended.  All the formulation guarantees for a fixed task is what
it guarantees for every task: the day-wide total of assigned blocks equals
`int(effort_required)` and at most one employee works the task per block.
No per-block demand-curve equality is enforced. -/
theorem c2_fixed_task_constraints (employees : List Employee) (tasks : List Task)
    (x : ℕ → ℕ → ℕ → Bool) (t : ℕ) (hf : Feasible employees tasks x)
    (ht : t < tasks.length) (_hfix : (tasks.getD t defTask).is_fixed = true) :
    (totalAssigned x employees.length t : ℤ) =
        pyInt (tasks.getD t defTask).effort_required ∧
      ∀ s < TOTAL_BLOCKS, assignedEmpCount x employees.length t s ≤ 1 :=
  ⟨hf.2.2.2 t ht, fun s hs => hf.2.2.1 t ht s hs⟩

/-- Witness for C2: the fixed-task instance with `demand_curve = [1,1,0,1]`. -/
theorem c2_fixed_task_constraints_witness :
    Feasible [allDayEmp] [taskFix] xFix ∧ taskFix.is_fixed = true ∧
      ((totalAssigned xFix 1 0 : ℤ) = pyInt taskFix.effort_required ∧
        ∀ s < TOTAL_BLOCKS, assignedEmpCount xFix 1 0 s ≤ 1) :=
  ⟨feasible_xFix, by decide,
    c2_fixed_task_constraints [allDayEmp] [taskFix] xFix 0 feasible_xFix
      (by decide) (by decide)⟩

/-- Claim C3, counterexample.  The formulation never forces `x[e,t,s] = 0` for
an employee lacking the task's skill: `xSkill` assigns the skill-less
`allDayEmp` to `taskSkill` (required skill `"X"`, positive effort) at
block 0 and satisfies every hard constraint, so the solver returns this
schedule rather than a no-solution status. -/
theorem c3_skill_not_enforced :
    Feasible [allDayEmp] [taskSkill] xSkill ∧
      allDayEmp.has_skill taskSkill.skill_needed = false ∧
      xSkill 0 0 0 = true ∧ 0 < taskSkill.effort_required :=
  ⟨feasible_xSkill, by decide, by decide, by with_unfolding_all decide⟩

/-- Claim C3, amended.  The built constraint model contains no skill-eligibility
constraint: a task requiring a skill its only employee lacks, with
positive effort, still admits an accepted solution that assigns that
employee. -/
theorem c3_no_skill_constraint :
    ∃ x, Feasible [allDayEmp] [taskSkill] x ∧ x 0 0 0 = true ∧
      allDayEmp.has_skill taskSkill.skill_needed = false ∧
      0 < taskSkill.effort_required :=
  ⟨xSkill, feasible_xSkill, by decide, by decide, by with_unfolding_all decide⟩

/-- Claim C5, counterexample.  No feasible solution puts two employees on the
flexible task `taskFlex` at the same block: constraint C (`Σ_e x ≤ 1`) is
added for every task, flexible ones included. -/
theorem c5_no_concurrent_flexible :
    taskFlex.is_fixed = false ∧
      ¬ ∃ x, Feasible [allDayEmp, allDayEmp2] [taskFlex] x ∧
        x 0 0 0 = true ∧ x 1 0 0 = true := by
  refine ⟨by decide, ?_⟩
  rintro ⟨x, hf, h1, h2⟩
  exact feasible_task_exclusive _ _ _ hf 0 (by decide) 0 (by decide) 0 1
    (by decide) (by decide) (by decide) ⟨h1, h2⟩

/-- Claim C5, amended.  Every task — flexible tasks included, there being no
single-worker flag anywhere in the code — is exclusivity-constrained
across employees: no accepted solution has two distinct employees on the
same task at the same block. -/
theorem c5_all_tasks_exclusive (employees : List Employee) (tasks : List Task)
    (x : ℕ → ℕ → ℕ → Bool) (hf : Feasible employees tasks x) :
    ∀ t < tasks.length, ∀ s < TOTAL_BLOCKS, ∀ e1 e2, e1 < employees.length →
      e2 < employees.length → e1 ≠ e2 → ¬(x e1 t s = true ∧ x e2 t s = true) :=
  feasible_task_exclusive employees tasks x hf

/-- Witness for C5: the two-employee flexible-task instance. -/
theorem c5_all_tasks_exclusive_witness :
    Feasible [allDayEmp, allDayEmp2] [taskFlex] xFlex ∧
      ¬(xFlex 0 0 0 = true ∧ xFlex 1 0 0 = true) :=
  ⟨feasible_xFlex,
    c5_all_tasks_exclusive [allDayEmp, allDayEmp2] [taskFlex] xFlex feasible_xFlex
      0 (by decide) 0 (by decide) 0 1 (by decide) (by decide) (by decide)⟩

/-- Claim C6, counterexample.  For `effort_required = 2.7` the formulation
accepts a solution with day-wide total 2 — `int(2.7)`, truncation — while
rounding would demand 3: the claim's `round` is not what the code does. -/
theorem c6_effort_truncated_not_rounded :
    Feasible [allDayEmp] [taskFrac] xFrac ∧ (totalAssigned xFrac 1 0 : ℤ) = 2 ∧
      roundSpec taskFrac.effort_required = 3 :=
  ⟨feasible_xFrac, by decide, by with_unfolding_all decide⟩

/-- Claim C6, amended.  The hard demand constraint for every task requires the
total number of assigned blocks to equal `int(effort_required)` —
truncation toward zero, not rounding. -/
theorem c6_total_is_truncated_effort (employees : List Employee)
    (tasks : List Task) (x : ℕ → ℕ → ℕ → Bool) (t : ℕ)
    (hf : Feasible employees tasks x) (ht : t < tasks.length) :
    (totalAssigned x employees.length t : ℤ) =
      pyInt (tasks.getD t defTask).effort_required :=
  hf.2.2.2 t ht

/-- Witness for C6: the fractional-effort instance, where the truncated
target `int(2.7) = 2` is met. -/
theorem c6_total_is_truncated_effort_witness :
    Feasible [allDayEmp] [taskFrac] xFrac ∧ pyInt taskFrac.effort_required = 2 ∧
      (totalAssigned xFrac 1 0 : ℤ) = pyInt taskFrac.effort_required :=
  ⟨feasible_xFrac, by with_unfolding_all decide,
    c6_total_is_truncated_effort [allDayEmp] [taskFrac] xFrac 0 feasible_xFrac
      (by decide)⟩

/-! ### Metrics-engine helper lemmas -/

theorem headSwitch_none (s : Option BlockStatus) : headSwitch none s = 0 := by
  cases s with
  | none => rfl
  | some st => cases st <;> rfl

theorem headSwitch_snd_none (l : Option String) : headSwitch l none = 0 := by
  cases l <;> rfl

theorem headSwitch_offShift (l : Option String) :
    headSwitch l (some .offShift) = 0 := by
  cases l <;> rfl

theorem headSwitch_idle (l : Option String) : headSwitch l (some .idle) = 0 := by
  cases l <;> rfl

theorem empBlock_working_cost (emp : Employee) (a : EmpAcc) (t : String) :
    (empBlock emp a (.working t)).cost =
      a.cost + emp.switch_cost * (headSwitch a.last (some (.working t)) : ℚ)
        + prefPenalty *
          (if !emp.ideal_tasks.isEmpty && !emp.ideal_tasks.contains t then 1 else 0) := by
  rcases hl : a.last with _ | t'
  · simp only [empBlock, hl, headSwitch]
    split <;> push_cast <;> ring
  · simp only [empBlock, hl, headSwitch]
    by_cases h : t = t'
    · simp only [h, ne_eq, not_true_eq_false, decide_False,
        if_neg (by simp : ¬ (t' : String) ≠ t')]
      split <;> simp
    · simp only [ne_eq, h, not_false_eq_true, decide_True, if_pos (Ne.symm h ∘ Eq.symm)]
      split <;> simp

theorem empBlock_working_last (emp : Employee) (a : EmpAcc) (t : String) :
    (empBlock emp a (.working t)).last = some t := rfl

theorem empBlock_total_sub_cost (emp : Employee) (a : EmpAcc) (st : BlockStatus) :
    (empBlock emp a st).total - (empBlock emp a st).cost = a.total - a.cost := by
  cases st with
  | offShift => rfl
  | idle => simp [empBlock]
  | working t =>
    simp only [empBlock]
    split <;> split <;> ring

/-- Cost decomposition of one employee's full-day sweep: starting from any
running state, the sweep adds exactly one switch charge per switch point,
one idle charge per idle block and one preference charge per non-ideal
worked block. -/
theorem sweep_cost_decomp (emp : Employee) :
    ∀ (sts : List BlockStatus) (a : EmpAcc),
      (sweepEmp emp sts a).cost =
        a.cost + emp.switch_cost * (switchesAux a.last sts : ℚ)
          + idleCost * (idleBlocks sts : ℚ)
          + prefPenalty * (nonIdealBlocks emp sts : ℚ) := by
  intro sts
  induction sts with
  | nil =>
    intro a
    simp [sweepEmp, switchesAux, idleBlocks, nonIdealBlocks]
  | cons s rest ih =>
    intro a
    have hstep : sweepEmp emp (s :: rest) a = sweepEmp emp rest (empBlock emp a s) := rfl
    rw [hstep, ih]
    cases s with
    | offShift =>
      have hb : empBlock emp a .offShift = { a with consec := 0, last := none } := rfl
      rw [hb]
      simp only [switchesAux, prevTask, headSwitch_offShift, idleBlocks, nonIdealBlocks,
        List.countP_cons]
      push_cast
      ring
    | idle =>
      have hb : empBlock emp a .idle =
          { a with consec := 0, last := none,
                   cost := a.cost + idleCost, total := a.total + idleCost } := rfl
      rw [hb]
      simp only [switchesAux, prevTask, headSwitch_idle, idleBlocks, nonIdealBlocks,
        List.countP_cons]
      push_cast
      ring
    | working t =>
      rw [empBlock_working_cost, empBlock_working_last]
      simp only [switchesAux, prevTask, idleBlocks, nonIdealBlocks, List.countP_cons]
      split <;> push_cast <;> ring

/-- The sweep adds the same amount to `total_cost` as to the employee's
`employee_costs` entry: the two accumulators move in lockstep. -/
theorem sweep_total_sub_cost (emp : Employee) :
    ∀ (sts : List BlockStatus) (a : EmpAcc),
      (sweepEmp emp sts a).total - (sweepEmp emp sts a).cost = a.total - a.cost := by
  intro sts
  induction sts with
  | nil => intro a; rfl
  | cons s rest ih =>
    intro a
    have hstep : sweepEmp emp (s :: rest) a = sweepEmp emp rest (empBlock emp a s) := rfl
    rw [hstep, ih, empBlock_total_sub_cost]

theorem adjacentSwitches_cons₂ (s r : BlockStatus) (rs : List BlockStatus) :
    adjacentSwitches (s :: r :: rs) =
      adjacentSwitches (r :: rs) + headSwitch (prevTask s) (some r) := by
  show List.countP _ ((s, r) :: (r :: rs).zip rs) = _
  rw [List.countP_cons]
  congr 1
  cases s <;> cases r <;> simp [headSwitch, prevTask]

theorem switchesAux_eq_adjacent (sts : List BlockStatus) :
    ∀ l, switchesAux l sts = headSwitch l sts.head? + adjacentSwitches sts := by
  induction sts with
  | nil => intro l; simp [switchesAux, adjacentSwitches, headSwitch_snd_none]
  | cons s rest ih =>
    intro l
    rw [switchesAux, ih (prevTask s)]
    cases rest with
    | nil =>
      simp [adjacentSwitches, headSwitch_snd_none]
    | cons r rs =>
      rw [adjacentSwitches_cons₂]
      simp only [List.head?]
      omega

theorem switchesAux_none_eq_adjacent (sts : List BlockStatus) :
    switchesAux none sts = adjacentSwitches sts := by
  rw [switchesAux_eq_adjacent, headSwitch_none, Nat.zero_add]

/-- Claim C9.  For any grid and any single employee, the accumulated cost is the
switch cost times the number of switch points — adjacent pairs of worked
blocks with different tasks, i.e. exactly one charge per maximal
contiguous run whose immediately preceding block worked a different task,
never one per block — plus the idle and preference charges.  Runs entered
from idle or off-shift blocks (which reset `last_task_id`) are charged no
switch cost. -/
theorem c9_switch_cost_once_per_run (grid : Grid) (emp : Employee)
    (tasks : List Task) :
    (calculate_metrics grid [emp] tasks).employee_costs emp.id =
      emp.switch_cost * (adjacentSwitches (dayStatuses grid emp) : ℚ)
        + idleCost * (idleBlocks (dayStatuses grid emp) : ℚ)
        + prefPenalty * (nonIdealBlocks emp (dayStatuses grid emp) : ℚ) := by
  simp only [calculate_metrics, List.foldl, metricsStep]
  rw [if_pos trivial, sweep_cost_decomp]
  dsimp only
  rw [switchesAux_none_eq_adjacent]
  ring

/-- The employee-costs map is untouched by folding employees whose ids
differ from `id`. -/
theorem fold_ec_stable (grid : Grid) :
    ∀ (es : List Employee) (acc : ℚ × (String → ℚ) × (String → ℚ)) (id : String),
      id ∉ es.map Employee.id →
      (es.foldl (metricsStep grid) acc).2.2 id = acc.2.2 id := by
  intro es
  induction es with
  | nil => intro acc id _; rfl
  | cons emp rest ih =>
    intro acc id hid
    simp only [List.map_cons, List.mem_cons, not_or] at hid
    rw [List.foldl_cons, ih _ _ hid.2]
    obtain ⟨tot, prog, ec⟩ := acc
    simp only [metricsStep]
    exact if_neg hid.1

/-- The outer fold of `calculate_metrics` accumulates into `total_cost`
exactly the sum of the final per-employee cost entries, provided employee
ids are distinct and the starting cost map is zero on them. -/
theorem fold_total_decomp (grid : Grid) :
    ∀ (es : List Employee) (tot : ℚ) (prog ec : String → ℚ),
      (es.map Employee.id).Nodup → (∀ e ∈ es, ec e.id = 0) →
      (es.foldl (metricsStep grid) (tot, prog, ec)).1 =
        tot + (es.map (fun e =>
          (es.foldl (metricsStep grid) (tot, prog, ec)).2.2 e.id)).sum := by
  intro es
  induction es with
  | nil => intro tot prog ec _ _; simp
  | cons emp rest ih =>
    intro tot prog ec hnd hz
    simp only [List.map_cons, List.nodup_cons] at hnd
    obtain ⟨hnotin, hnd'⟩ := hnd
    have hec0 : ec emp.id = 0 := hz emp (by simp)
    set a := sweepEmp emp (dayStatuses grid emp)
      { consec := 0, last := none, cost := ec emp.id, total := tot, prog := prog }
      with ha
    have hacc : metricsStep grid (tot, prog, ec) emp =
        (a.total, a.prog, fun id => if id = emp.id then a.cost else ec id) := rfl
    have htot : a.total = tot + a.cost := by
      have h := sweep_total_sub_cost emp (dayStatuses grid emp)
        { consec := 0, last := none, cost := ec emp.id, total := tot, prog := prog }
      rw [← ha] at h
      simp only [hec0] at h
      linarith
    have hz' : ∀ e ∈ rest, (fun id => if id = emp.id then a.cost else ec id) e.id = 0 := by
      intro e he
      have hne : e.id ≠ emp.id := by
        intro hEq
        exact hnotin (hEq ▸ List.mem_map_of_mem Employee.id he)
      simp only [if_neg hne]
      exact hz e (List.mem_cons_of_mem _ he)
    have hih := ih a.total a.prog
      (fun id => if id = emp.id then a.cost else ec id) hnd' hz'
    rw [List.foldl_cons, hacc, hih]
    have hstable := fold_ec_stable grid rest
      (a.total, a.prog, fun id => if id = emp.id then a.cost else ec id) emp.id hnotin
    simp only [List.map_cons, List.sum_cons, hstable, if_pos rfl, if_true]
    linarith

/-- Claim C10.  Invariant of `calculate_metrics`: with distinct employee ids (the
configuration contract), `total_cost` equals the sum over all employees of
their `employee_costs` entries — every switch, idle and preference charge
is added to both accumulators and to nothing else. -/
theorem c10_total_is_sum_of_costs (grid : Grid) (employees : List Employee)
    (tasks : List Task) (hnd : (employees.map Employee.id).Nodup) :
    (calculate_metrics grid employees tasks).total_cost =
      (employees.map (fun e =>
        (calculate_metrics grid employees tasks).employee_costs e.id)).sum := by
  have h := fold_total_decomp grid employees 0 (fun _ => 0) (fun _ => 0) hnd
    (fun _ _ => rfl)
  simpa [calculate_metrics] using h

/-- Witness for C10: the scenario-B instance. -/
theorem c10_total_is_sum_of_costs_witness :
    ([emp1].map Employee.id).Nodup ∧
      (calculate_metrics grid1 [emp1] [task1]).total_cost =
        ([emp1].map (fun e =>
          (calculate_metrics grid1 [emp1] [task1]).employee_costs e.id)).sum :=
  ⟨by simp, c10_total_is_sum_of_costs grid1 [emp1] [task1] (by simp)⟩

end Reposicao
